import Mathlib

/-!
Verification of the foxbot calendar-notification bot.

Shallow embedding of `src/events.py`, `src/settings.py` and the
`toggle_ping_everyone` command of `src/main.py`.  Python dicts are modelled
as insertion-ordered association lists, JSON values by the inductive `JVal`,
`datetime.date` by `PyDate` (proleptic Gregorian calendar, as CPython), and
effectful steps (network fetch, file writes) by explicit inputs describing
the outcome of each external interaction.
-/

/-- JSON values, as produced/consumed by Python's `json` module.
Numbers are modelled as integers (the values relevant here are ints). -/
inductive JVal where
  | null
  | bool (b : Bool)
  | num (n : Int)
  | str (s : String)
  | arr (elems : List JVal)
  | obj (fields : List (String × JVal))

/-- Python truthiness of a JSON value (`bool(v)`): `None`, `False`, `0`,
empty string/list/dict are falsy, everything else truthy. -/
def pyTruthy : JVal → Bool
  | .null => false
  | .bool b => b
  | .num n => n != 0
  | .str s => !s.isEmpty
  | .arr l => !l.isEmpty
  | .obj l => !l.isEmpty

/-- A stored event record: the dict
`{"event_type": ..., "date": ..., "event_title": ...}` built in
`CalendarEvents.fetch_and_parse`. -/
structure EventRec where
  event_type : String
  date : String
  event_title : String
deriving DecidableEq

/-- Python `datetime.date`: a proleptic-Gregorian calendar date. -/
structure PyDate where
  year : Nat
  month : Nat
  day : Nat
deriving DecidableEq

/-- Gregorian leap-year rule, as `calendar.isleap` / `datetime`. -/
def isLeap (y : Nat) : Bool :=
  y % 4 == 0 && (y % 100 != 0 || y % 400 == 0)

/-- Number of days in month `m` of year `y`. -/
def daysInMonth (y m : Nat) : Nat :=
  if m = 2 then (if isLeap y then 29 else 28)
  else if m = 4 ∨ m = 6 ∨ m = 9 ∨ m = 11 then 30
  else 31

/-- Days before month `m` in a non-leap year. -/
def monthDaysBefore (m : Nat) : Nat :=
  [0, 31, 59, 90, 120, 151, 181, 212, 243, 273, 304, 334].getD (m - 1) 0

/-- Days in year `y` strictly before month `m`. -/
def daysBeforeMonth (y m : Nat) : Nat :=
  monthDaysBefore m + (if 2 < m ∧ isLeap y then 1 else 0)

/-- Days before January 1st of year `y` in the proleptic Gregorian calendar. -/
def daysBeforeYear (y : Nat) : Nat :=
  365 * (y - 1) + (y - 1) / 4 + (y - 1) / 400 - (y - 1) / 100

/-- Python `datetime.date.toordinal`: day number with 0001-01-01 as day 1. -/
def PyDate.toordinal (d : PyDate) : Nat :=
  daysBeforeYear d.year + daysBeforeMonth d.year d.month + d.day

/-- Full weekday names, index 0 = Monday (as `date.weekday()` / `%A`). -/
def weekdayNames : List String :=
  ["Monday", "Tuesday", "Wednesday", "Thursday", "Friday", "Saturday", "Sunday"]

/-- Full month names, as `strftime("%B")`. -/
def monthNames : List String :=
  ["January", "February", "March", "April", "May", "June",
   "July", "August", "September", "October", "November", "December"]

/-- Model of `strftime("%A")`: the full weekday name (0001-01-01 was a Monday). -/
def PyDate.weekdayName (d : PyDate) : String :=
  weekdayNames.getD ((d.toordinal + 6) % 7) ""

/-- Model of `strftime("%B")`: the full month name. -/
def PyDate.monthName (d : PyDate) : String :=
  monthNames.getD (d.month - 1) ""

/-- Zero-pad a number to two digits. -/
def pad2 (n : Nat) : String :=
  if n < 10 then "0" ++ toString n else toString n

/-- Zero-pad a number to four digits. -/
def pad4 (n : Nat) : String :=
  if n < 10 then "000" ++ toString n
  else if n < 100 then "00" ++ toString n
  else if n < 1000 then "0" ++ toString n
  else toString n

/-- Model of `date.isoformat()`: render as `YYYY-MM-DD`. -/
def PyDate.isoformat (d : PyDate) : String :=
  pad4 d.year ++ "-" ++ pad2 d.month ++ "-" ++ pad2 d.day

/-- Numeric value of a decimal digit character. -/
def digitVal (c : Char) : Nat := c.toNat - 48

/-- Model of `date.fromisoformat` on the canonical `YYYY-MM-DD` form: parse and
validate a calendar date, `none` modelling the `ValueError` raised on any
other input. -/
def fromisoformat (s : String) : Option PyDate :=
  match s.toList with
  | [y1, y2, y3, y4, sep1, m1, m2, sep2, d1, d2] =>
    if sep1 == '-' && sep2 == '-' && y1.isDigit && y2.isDigit && y3.isDigit
        && y4.isDigit && m1.isDigit && m2.isDigit && d1.isDigit && d2.isDigit then
      let y := ((digitVal y1 * 10 + digitVal y2) * 10 + digitVal y3) * 10 + digitVal y4
      let m := digitVal m1 * 10 + digitVal m2
      let d := digitVal d1 * 10 + digitVal d2
      if 1 ≤ y ∧ y ≤ 9999 ∧ 1 ≤ m ∧ m ≤ 12 ∧ 1 ≤ d ∧ d ≤ daysInMonth y m then
        some ⟨y, m, d⟩
      else none
    else none
  | _ => none

/-- Python `date.__le__`: dates compare lexicographically (year, month, day). -/
def dateLe (a b : PyDate) : Bool :=
  if a.year < b.year then true
  else if b.year < a.year then false
  else if a.month < b.month then true
  else if b.month < a.month then false
  else decide (a.day ≤ b.day)

/-- The day-suffix computation inside `format_date`:
`"th"` for 11–13, else the dict `{1: "st", 2: "nd", 3: "rd"}.get(day % 10, "th")`. -/
def daySuffix (day : Nat) : String :=
  if 11 ≤ day ∧ day ≤ 13 then "th"
  else
    match day % 10 with
    | 1 => "st"
    | 2 => "nd"
    | 3 => "rd"
    | _ => "th"

/-- Model of `format_date` from `src/events.py`: parse a `YYYY-MM-DD` string and
render it as `"%A, %B {day}{suffix}"`; `none` models the exception raised
by `date.fromisoformat` on invalid input. -/
def format_date (date_str : String) : Option String :=
  (fromisoformat date_str).map (fun d =>
    d.weekdayName ++ ", " ++ d.monthName ++ " " ++ toString d.day ++ daySuffix d.day)

/-- The suffix rule as the specification words it: days 11, 12, 13 take
`"th"`; otherwise days ending in 1/2/3 take `"st"`/`"nd"`/`"rd"`, and all
other days take `"th"`. -/
def specSuffix (day : Nat) : String :=
  if day = 11 ∨ day = 12 ∨ day = 13 then "th"
  else if day % 10 = 1 then "st"
  else if day % 10 = 2 then "nd"
  else if day % 10 = 3 then "rd"
  else "th"

/-- Code-point comparison of strings as character lists: CPython's `str`
ordering (lexicographic by code point, a proper initial segment is smaller). -/
def charsLe : List Char → List Char → Bool
  | [], _ => true
  | _ :: _, [] => false
  | a :: as, b :: bs =>
    if a.toNat < b.toNat then true
    else if b.toNat < a.toNat then false
    else charsLe as bs

/-- Python `s1 <= s2` on strings. -/
def strLeB (a b : String) : Bool := charsLe a.toList b.toList

/-- Whether `pat` is a prefix of `l` (character lists). -/
def hasPrefixChars : List Char → List Char → Bool
  | [], _ => true
  | _ :: _, [] => false
  | p :: ps, c :: cs => p == c && hasPrefixChars ps cs

/-- Whether `pat` occurs as a contiguous substring of `l`:
Python's `pat in s` on strings. -/
def charsContain (pat : List Char) : List Char → Bool
  | [] => pat.isEmpty
  | c :: cs => hasPrefixChars pat (c :: cs) || charsContain pat cs

/-- Python `pat in s` for strings. -/
def strContains (s pat : String) : Bool := charsContain pat.toList s.toList

/-- Python `str.lower()` (ASCII case mapping, which covers every keyword
and title compared in this program). -/
def pyLower (s : String) : String := String.mk (s.toList.map Char.toLower)

/-- String suffix test, `s.endsWith(suf)`. -/
def strEndsWith (s suf : String) : Bool :=
  hasPrefixChars suf.toList.reverse s.toList.reverse

/-- The `EVENT_TYPES` keyword table of `src/events.py`, in its (Python 3.7+
insertion-preserving) iteration order. -/
def EVENT_TYPES : List (String × String) :=
  [("dress_day", "dress day"),
   ("hall", "hall:"),
   ("late_start", "late start"),
   ("extended_homeroom", "extended homeroom")]

/-- Model of `CalendarEvents._get_event_type`: lower-case the event name and return
the first event type whose keyword occurs in it, else `None`. -/
def getEventType (event_name : String) : Option String :=
  let event_name_lower := pyLower event_name
  (EVENT_TYPES.find? (fun p => strContains event_name_lower p.2)).map (fun p => p.1)

/-- The classification rule as the specification words it: case-fold the
title and test the four keywords in the fixed order dress_day, hall,
late_start, extended_homeroom; first match wins, no match classifies to
nothing. -/
def specClassify (title : String) : Option String :=
  let t := pyLower title
  if strContains t "dress day" then some "dress_day"
  else if strContains t "hall:" then some "hall"
  else if strContains t "late start" then some "late_start"
  else if strContains t "extended homeroom" then some "extended_homeroom"
  else none

/-- The `dt` attribute of a `dtstart` field: either a pure date or a
datetime (whose time-of-day the code drops via `.date()`). -/
inductive DtStart where
  | dateOnly (d : PyDate)
  | dateTime (d : PyDate)

/-- Normalisation performed in `fetch_and_parse`: a datetime is reduced to
its date, a date is kept. -/
def dtstartDate : DtStart → PyDate
  | .dateOnly d => d
  | .dateTime d => d

/-- One component yielded by `cal.walk()`: its `name`, its optional
`summary` field and its optional `dtstart` field. -/
structure Component where
  name : String
  summary : Option String
  dtstart : Option DtStart

/-- The title the loop reads: `str(component.get("summary", ""))`. -/
def effectiveSummary (c : Component) : String := c.summary.getD ""

/-- The body of the `for component in cal.walk()` loop for one component:
the record appended to `self.events`, if any.  Non-`VEVENT` components,
unclassified titles and components without `dtstart` contribute nothing. -/
def componentEvent (c : Component) : Option EventRec :=
  if c.name = "VEVENT" then
    let event_name := effectiveSummary c
    match getEventType event_name with
    | some event_type =>
      match c.dtstart with
      | some ds =>
        some { event_type := event_type,
               date := (dtstartDate ds).isoformat,
               event_title := event_name }
      | none => none
    | none => none
  else none

/-- The whole parsing loop of `fetch_and_parse`: records appended in
component order. -/
def parseComponents (comps : List Component) : List EventRec :=
  comps.filterMap componentEvent

/-- JSON encoding of one event record, with the dict's key order. -/
def eventToJ (e : EventRec) : JVal :=
  .obj [("event_type", .str e.event_type),
        ("date", .str e.date),
        ("event_title", .str e.event_title)]

/-- Value written by `json.dump(self.events, f)`: the JSON value written to `events.json`. -/
def eventsToJ (es : List EventRec) : JVal := .arr (es.map eventToJ)

/-- Reading one JSON object back as an event record (the dict
`json.load` yields for it). -/
def jToEvent : JVal → Option EventRec
  | .obj [("event_type", .str t), ("date", .str d), ("event_title", .str n)] =>
    some ⟨t, d, n⟩
  | _ => none

/-- Reading a list of JSON values back as event records. -/
def decodeEventList : List JVal → Option (List EventRec)
  | [] => some []
  | j :: rest =>
    match jToEvent j with
    | none => none
    | some e => (decodeEventList rest).map (fun l => e :: l)

/-- Model of `json.load` on the events file, read back as event records
(models `_load_from_file` recovering the stored list). -/
def decodeEvents : JVal → Option (List EventRec)
  | .arr l => decodeEventList l
  | _ => none

/-- Content of the `events.json` file: missing, a well-formed JSON value,
or the truncated/partial text left behind when a write was interrupted
(the bytes are unspecified and nothing in the program's modelled
behaviour reads them back). -/
inductive FileState where
  | missing
  | json (v : JVal)
  | truncated

/-- State of a `CalendarEvents` instance together with its backing file:
`events` is `self.events`, `file` the content of `events.json`. -/
structure CEState where
  events : List EventRec
  file : FileState

/-- Outcome of the file write in `_save_to_file` (and `Settings._save`):
the write succeeds, or `open(..., "w")` itself raises `IOError` before
truncating the file, or the `json.dump` raises after `open` has already
truncated, leaving partial content.  Both failures are caught and only
logged. -/
inductive WriteOutcome where
  | success
  | failBeforeWrite
  | failDuringWrite
deriving DecidableEq

/-- Model of `CalendarEvents._save_to_file`: overwrite the file with the
JSON encoding of the current list.  An `IOError` is caught and logged: if
`open` itself failed the old file survives, while a failure during the
dump leaves truncated/partial content, because `open(..., "w")` truncates
before `json.dump` writes. -/
def saveToFile (st : CEState) (w : WriteOutcome) : CEState :=
  { st with file :=
      match w with
      | .success => .json (eventsToJ st.events)
      | .failBeforeWrite => st.file
      | .failDuringWrite => .truncated }

/-- Outcome of the `aiohttp` GET in `fetch_and_parse`: a raised
`ClientError`, or a response with a status code whose body parses via
`Calendar.from_ical` to a component list (`none` when parsing raises). -/
inductive FetchOutcome where
  | clientError
  | response (status : Nat) (parsed : Option (List Component))

/-- The external inputs of one `fetch_and_parse` call: the `ical_url`
argument, the value of `settings.ical_url`, the `ICAL_URL` environment
variable, the network outcome, and the outcome of the final file write. -/
structure SyncInput where
  ical_url : Option String
  settings_url : Option String
  env_url : Option String
  fetch : FetchOutcome
  save : WriteOutcome

/-- Python `a or b` for optional strings: `a` unless it is `None` or
empty (falsy), else `b`. -/
def pyOrStr (a b : Option String) : Option String :=
  match a with
  | some s => if s.isEmpty then b else some s
  | none => b

/-- Model of `url = ical_url or settings.ical_url or os.getenv("ICAL_URL")` followed
by the `if not url` check: `none` means no URL resolved (falsy `url`). -/
def resolveUrl (inp : SyncInput) : Option String :=
  match pyOrStr (pyOrStr inp.ical_url inp.settings_url) inp.env_url with
  | some s => if s.isEmpty then none else some s
  | none => none

/-- The ordering `fetch_and_parse` sorts with:
`key=lambda x: x["date"]` under CPython's string order. -/
def eventLe (a b : EventRec) : Prop := strLeB a.date b.date = true

instance : DecidableRel eventLe :=
  fun a b => inferInstanceAs (Decidable (strLeB a.date b.date = true))

/-- Model of `CalendarEvents.fetch_and_parse`: resolve the URL, fetch, parse,
rebuild, sort and save the event list, returning the count; any failure
before the rebuild returns 0 with the state untouched.  A failing save is
caught inside `_save_to_file`, so the new in-memory list and its count are
still produced.  `self.events.sort(key=...)` is CPython's stable sort; it
is modelled by the stable `List.insertionSort` (a stable sort under a
total preorder is unique, so the two agree pointwise). -/
def fetch_and_parse (inp : SyncInput) (st : CEState) : Nat × CEState :=
  match resolveUrl inp with
  | none => (0, st)
  | some _ =>
    match inp.fetch with
    | .clientError => (0, st)
    | .response status parsed =>
      if status ≠ 200 then (0, st)
      else
        match parsed with
        | none => (0, st)
        | some comps =>
          let evs := List.insertionSort eventLe (parseComponents comps)
          (evs.length, saveToFile { events := evs, file := st.file } inp.save)

/-- The filtering comprehension of `get_upcoming_by_type`, including the
left-to-right evaluation that calls `date.fromisoformat` only on records
whose type matches; `none` models the exception on an unparsable date. -/
def upcomingFilter (event_type : String) (today : PyDate) :
    List EventRec → Option (List EventRec)
  | [] => some []
  | e :: rest =>
    if e.event_type == event_type then
      match fromisoformat e.date with
      | none => none
      | some d =>
        match upcomingFilter event_type today rest with
        | none => none
        | some l => some (if dateLe today d then e :: l else l)
    else upcomingFilter event_type today rest

/-- Model of `CalendarEvents.get_upcoming_by_type`, with `date.today()` passed
explicitly: filter by type and `date >= today`, then take `limit`. -/
def get_upcoming_by_type (events : List EventRec) (event_type : String)
    (today : PyDate) (limit : Nat) : Option (List EventRec) :=
  (upcomingFilter event_type today events).map (fun l => l.take limit)

/-- Python dict lookup on an insertion-ordered association list. -/
def dictGet (m : List (String × JVal)) (k : String) : Option JVal :=
  (m.find? (fun p => p.1 == k)).map (fun p => p.2)

/-- Python dict assignment `m[k] = v`: update the existing entry in place,
else append a new entry at the end. -/
def dictSet (m : List (String × JVal)) (k : String) (v : JVal) :
    List (String × JVal) :=
  if (m.find? (fun p => p.1 == k)).isSome then
    m.map (fun p => if p.1 == k then (k, v) else p)
  else m ++ [(k, v)]

/-- The `DEFAULT_SETTINGS` table of `src/settings.py`. -/
def DEFAULT_SETTINGS : List (String × JVal) :=
  [("notification_channel_id", .null),
   ("ical_url", .null),
   ("ping_everyone", .bool true)]

/-- State of the `Settings` instance together with its backing file:
`settings` is `self._settings`, `file` the JSON object stored in
`settings.json` (`none` when absent). -/
structure SettingsState where
  settings : List (String × JVal)
  file : Option (List (String × JVal))

/-- Model of `Settings.set`: assign the key and save.  `Settings._save`
catches and logs `IOError`; its failure branch (`saveOk = false`) is a
coarse abstraction that keeps the old file content (as with the events
file, a dump interrupted after `open(..., "w")` would really leave
truncated content), and every theorem below about settings exercises only
the successful-write branch. -/
def settingsSet (st : SettingsState) (k : String) (v : JVal)
    (saveOk : Bool) : SettingsState :=
  let m := dictSet st.settings k v
  { settings := m, file := if saveOk then some m else st.file }

/-- The `ping_everyone` property getter:
`self._settings.get("ping_everyone", True)`. -/
def pingEveryone (m : List (String × JVal)) : JVal :=
  (dictGet m "ping_everyone").getD (.bool true)

/-- The `/toggle-ping-everyone` command body from `src/main.py`:
`current = settings.ping_everyone; settings.ping_everyone = not current`
(Python `not` applies truthiness, and the property setter calls
`Settings.set`). -/
def toggle_ping_everyone (st : SettingsState) (saveOk : Bool) : SettingsState :=
  let current := pingEveryone st.settings
  settingsSet st "ping_everyone" (.bool (!pyTruthy current)) saveOk

/-- Model of `Settings._load` on a fresh process: the settings mapping a new
instance observes, given the file's content (file present and readable;
a missing file yields the defaults). -/
def freshLoad (file : Option (List (String × JVal))) : List (String × JVal) :=
  match file with
  | some m => m
  | none => DEFAULT_SETTINGS

/-- Python `int(v)` on a JSON value: ints pass through, booleans become
0/1, anything else raises (`none`; string parsing never occurs on the
values this program stores, so it is modelled as an error too). -/
def pyInt : JVal → Option Int
  | .num n => some n
  | .bool b => some (if b then 1 else 0)
  | _ => none

/-- The `notification_channel_id` property getter:
`value = self._settings.get("notification_channel_id");`
`return int(value) if value else None`. -/
def notification_channel_id (m : List (String × JVal)) : Option Int :=
  let value := (dictGet m "notification_channel_id").getD .null
  if pyTruthy value then pyInt value else none

/-- An event list state that is not sorted by date (reachable: the cache
file is loaded verbatim by `_load_from_file`, which never sorts). -/
def c3Events : List EventRec :=
  [⟨"hall", "2025-12-02", "Hall: B"⟩, ⟨"hall", "2025-12-01", "Hall: A"⟩]

/-- A concrete value of `date.today()`. -/
def c3Today : PyDate := ⟨2025, 1, 1⟩

/-- A previously cached event record. -/
def oldCachedEvent : EventRec := ⟨"hall", "2025-11-30", "Hall: Old"⟩

/-- A feed component whose title classifies as a hall event. -/
def hallComponent : Component :=
  ⟨"VEVENT", some "Hall: Winter Assembly", some (.dateOnly ⟨2025, 12, 1⟩)⟩

/-- A sync whose fetch and parse succeed but whose file write raises
`IOError` during the dump (PersistFailed). -/
def c5Input : SyncInput :=
  ⟨some "http://example.com/cal.ics", none, none,
   .response 200 (some [hallComponent]), .failDuringWrite⟩

/-- The cached state before the PersistFailed sync. -/
def c5State : CEState := ⟨[oldCachedEvent], .json (eventsToJ [oldCachedEvent])⟩

/-- A settings state whose stored `ping_everyone` value is a (truthy)
string, as the pass-through load from disk permits. -/
def c8State : SettingsState :=
  ⟨[("ping_everyone", .str "yes")], some [("ping_everyone", .str "yes")]⟩

/-! ### Helper lemmas -/

theorem charsLe_trans (as : List Char) :
    ∀ bs cs, charsLe as bs = true → charsLe bs cs = true → charsLe as cs = true := by
  induction as with
  | nil => intro bs cs _ _; rfl
  | cons a as ih =>
    intro bs cs h1 h2
    cases bs with
    | nil => simp [charsLe] at h1
    | cons b bs =>
      cases cs with
      | nil => simp [charsLe] at h2
      | cons c cs =>
        simp only [charsLe] at h1 h2 ⊢
        split_ifs at h1 h2 ⊢ <;>
          first
            | rfl
            | (exact ih bs cs h1 h2)
            | omega
            | simp_all

theorem charsLe_total (as : List Char) :
    ∀ bs, (charsLe as bs || charsLe bs as) = true := by
  induction as with
  | nil => intro bs; rfl
  | cons a as ih =>
    intro bs
    cases bs with
    | nil => rfl
    | cons b bs =>
      simp only [charsLe]
      split_ifs <;> first | rfl | (exact ih bs) | omega | simp_all

instance : IsTrans EventRec eventLe :=
  ⟨fun a b c h1 h2 => charsLe_trans _ _ _ h1 h2⟩

instance : IsTotal EventRec eventLe :=
  ⟨fun a b => by
    have h := charsLe_total a.date.toList b.date.toList
    rcases Bool.or_eq_true_iff.mp h with h | h
    · exact Or.inl h
    · exact Or.inr h⟩

theorem componentEvent_type {c : Component} {e : EventRec}
    (h : componentEvent c = some e) :
    getEventType e.event_title = some e.event_type := by
  simp only [componentEvent] at h
  split at h
  · split at h
    · split at h
      · cases h
        assumption
      · exact Option.noConfusion h
    · exact Option.noConfusion h
  · exact Option.noConfusion h

theorem upcomingFilter_sublist (t : String) (td : PyDate) :
    ∀ l res : List EventRec, upcomingFilter t td l = some res → res.Sublist l := by
  intro l
  induction l with
  | nil =>
    intro res h
    cases h
    exact List.Sublist.refl _
  | cons e rest ih =>
    intro res h
    simp only [upcomingFilter] at h
    by_cases he : (e.event_type == t) = true
    · rw [if_pos he] at h
      rcases hf : fromisoformat e.date with _ | d <;> rw [hf] at h
      · exact Option.noConfusion h
      · rcases hr : upcomingFilter t td rest with _ | l0 <;> rw [hr] at h
        · exact Option.noConfusion h
        · cases h
          by_cases hd : dateLe td d = true
          · rw [if_pos hd]
            exact (ih l0 hr).cons₂ e
          · rw [if_neg hd]
            exact (ih l0 hr).cons e
    · rw [if_neg he] at h
      exact (ih res h).cons e

theorem upcomingFilter_mem (t : String) (td : PyDate) :
    ∀ l res : List EventRec, upcomingFilter t td l = some res →
      ∀ e ∈ res, e.event_type = t ∧
        ∃ d, fromisoformat e.date = some d ∧ dateLe td d = true := by
  intro l
  induction l with
  | nil =>
    intro res h
    cases h
    intro e he
    exact absurd he (List.not_mem_nil e)
  | cons x rest ih =>
    intro res h
    simp only [upcomingFilter] at h
    by_cases he : (x.event_type == t) = true
    · rw [if_pos he] at h
      rcases hf : fromisoformat x.date with _ | d <;> rw [hf] at h
      · exact Option.noConfusion h
      · rcases hr : upcomingFilter t td rest with _ | l0 <;> rw [hr] at h
        · exact Option.noConfusion h
        · cases h
          intro e hmem
          by_cases hd : dateLe td d = true
          · rw [if_pos hd] at hmem
            rcases List.mem_cons.mp hmem with rfl | hmem
            · exact ⟨eq_of_beq he, d, hf, hd⟩
            · exact ih l0 hr e hmem
          · rw [if_neg hd] at hmem
            exact ih l0 hr e hmem
    · rw [if_neg he] at h
      exact fun e hmem => ih res h e hmem

theorem find?_map_setSelf (m : List (String × JVal)) (k : String) (v : JVal) :
    ((m.map (fun p => if p.1 == k then (k, v) else p)).find? (fun p => p.1 == k)) =
      if (m.find? (fun p => p.1 == k)).isSome then some (k, v) else none := by
  induction m with
  | nil => rfl
  | cons a m ih =>
    simp only [List.map_cons]
    by_cases ha : (a.1 == k) = true
    · rw [if_pos ha,
        List.find?_cons_of_pos (p := fun (q : String × JVal) => q.1 == k) _ (beq_self_eq_true k),
        List.find?_cons_of_pos (p := fun (q : String × JVal) => q.1 == k) _ ha]
      simp
    · rw [if_neg ha, List.find?_cons_of_neg (p := fun (q : String × JVal) => q.1 == k) _ ha,
        List.find?_cons_of_neg (p := fun (q : String × JVal) => q.1 == k) _ ha, ih]

theorem find?_map_setOther (m : List (String × JVal)) (k : String) (v : JVal)
    (k' : String) (h : k' ≠ k) :
    ((m.map (fun p => if p.1 == k then (k, v) else p)).find? (fun p => p.1 == k')) =
      m.find? (fun p => p.1 == k') := by
  induction m with
  | nil => rfl
  | cons a m ih =>
    simp only [List.map_cons]
    have hk : ¬(k == k') = true := by
      simp only [beq_iff_eq]
      exact fun hkk => h (hkk.symm)
    by_cases ha : (a.1 == k) = true
    · have hak : a.1 = k := eq_of_beq ha
      have ha' : ¬(a.1 == k') = true := by
        rw [hak]
        exact hk
      rw [if_pos ha, List.find?_cons_of_neg (p := fun (q : String × JVal) => q.1 == k') _ hk,
        List.find?_cons_of_neg (p := fun (q : String × JVal) => q.1 == k') _ ha', ih]
    · rw [if_neg ha]
      by_cases hb : (a.1 == k') = true
      · rw [List.find?_cons_of_pos (p := fun (q : String × JVal) => q.1 == k') _ hb,
          List.find?_cons_of_pos (p := fun (q : String × JVal) => q.1 == k') _ hb]
      · rw [List.find?_cons_of_neg (p := fun (q : String × JVal) => q.1 == k') _ hb,
          List.find?_cons_of_neg (p := fun (q : String × JVal) => q.1 == k') _ hb, ih]

theorem dictGet_set_self (m : List (String × JVal)) (k : String) (v : JVal) :
    dictGet (dictSet m k v) k = some v := by
  unfold dictGet dictSet
  by_cases hp : (m.find? (fun p => p.1 == k)).isSome
  · rw [if_pos hp, find?_map_setSelf, if_pos hp]
    rfl
  · rw [if_neg hp, List.find?_append]
    have hm : m.find? (fun p => p.1 == k) = none :=
      Option.not_isSome_iff_eq_none.mp hp
    simp [hm, List.find?_cons]

theorem dictGet_set_other (m : List (String × JVal)) (k : String) (v : JVal)
    (k' : String) (h : k' ≠ k) :
    dictGet (dictSet m k v) k' = dictGet m k' := by
  unfold dictGet dictSet
  by_cases hp : (m.find? (fun p => p.1 == k)).isSome
  · rw [if_pos hp, find?_map_setOther _ _ _ _ h]
  · rw [if_neg hp, List.find?_append]
    have hk : (k == k') = false := beq_eq_false_iff_ne.mpr (Ne.symm h)
    rcases hm : m.find? (fun p => p.1 == k') with _ | p <;>
      simp [hm, List.find?_cons, hk]

theorem jToEvent_eventToJ (e : EventRec) : jToEvent (eventToJ e) = some e := rfl

theorem decodeEventList_map (es : List EventRec) :
    decodeEventList (es.map eventToJ) = some es := by
  induction es with
  | nil => rfl
  | cons e es ih => simp [decodeEventList, jToEvent_eventToJ, ih]

theorem getEventType_eq_specClassify (s : String) :
    getEventType s = specClassify s := by
  cases h1 : strContains (pyLower s) "dress day" <;>
    cases h2 : strContains (pyLower s) "hall:" <;>
      cases h3 : strContains (pyLower s) "late start" <;>
        cases h4 : strContains (pyLower s) "extended homeroom" <;>
          simp [getEventType, specClassify, EVENT_TYPES, List.find?, h1, h2, h3, h4]

theorem fetch_and_parse_noUrl (inp : SyncInput) (st : CEState)
    (h : resolveUrl inp = none) : fetch_and_parse inp st = (0, st) := by
  unfold fetch_and_parse
  rw [h]

theorem fetch_and_parse_clientError (inp : SyncInput) (st : CEState) (u : String)
    (hu : resolveUrl inp = some u) (h : inp.fetch = FetchOutcome.clientError) :
    fetch_and_parse inp st = (0, st) := by
  unfold fetch_and_parse
  rw [hu, h]

theorem fetch_and_parse_badStatus (inp : SyncInput) (st : CEState) (u : String)
    (s : Nat) (p : Option (List Component)) (hu : resolveUrl inp = some u)
    (h : inp.fetch = FetchOutcome.response s p) (hs : s ≠ 200) :
    fetch_and_parse inp st = (0, st) := by
  unfold fetch_and_parse
  rw [hu, h]
  simp [hs]

theorem fetch_and_parse_parseError (inp : SyncInput) (st : CEState) (u : String)
    (hu : resolveUrl inp = some u) (h : inp.fetch = FetchOutcome.response 200 none) :
    fetch_and_parse inp st = (0, st) := by
  unfold fetch_and_parse
  rw [hu, h]
  simp

theorem fetch_and_parse_success (inp : SyncInput) (st : CEState) (u : String)
    (comps : List Component) (hu : resolveUrl inp = some u)
    (hf : inp.fetch = FetchOutcome.response 200 (some comps)) :
    fetch_and_parse inp st =
      ((List.insertionSort eventLe (parseComponents comps)).length,
       saveToFile { events := List.insertionSort eventLe (parseComponents comps),
                    file := st.file } inp.save) := by
  unfold fetch_and_parse
  rw [hu, hf]
  simp

/-! ### Claim theorems -/

/-- C1: every event stored by `fetch_and_parse` carries the event type
obtained by case-folding its title and testing the keyword table in the
fixed order dress_day, hall, late_start, extended_homeroom with the first
match winning (`getEventType` coincides with that rule, `specClassify`),
and an entry whose title matches no keyword contributes no stored event. -/
theorem c1_classification :
    (∀ s, getEventType s = specClassify s) ∧
    (∀ inp st u comps, resolveUrl inp = some u →
      inp.fetch = FetchOutcome.response 200 (some comps) →
      ∀ e ∈ (fetch_and_parse inp st).2.events,
        getEventType e.event_title = some e.event_type) ∧
    (∀ c, getEventType (effectiveSummary c) = none → componentEvent c = none) := by
  refine ⟨getEventType_eq_specClassify, ?_, ?_⟩
  · intro inp st u comps hu hf e he
    rw [fetch_and_parse_success inp st u comps hu hf] at he
    have he' : e ∈ List.insertionSort eventLe (parseComponents comps) := he
    have hmem : e ∈ parseComponents comps :=
      (List.perm_insertionSort eventLe (parseComponents comps)).mem_iff.mp he'
    rcases List.mem_filterMap.mp hmem with ⟨c, _, hc⟩
    exact componentEvent_type hc
  · intro c hnone
    simp [componentEvent, hnone]

/-- Witness for C1: a concrete stored event of a concrete successful sync
has the classified type of its title. -/
theorem c1_classification_witness :
    getEventType "Late Start Monday" = some "late_start" :=
  c1_classification.2.1
    ⟨some "u", none, none,
      FetchOutcome.response 200
        (some [⟨"VEVENT", some "Late Start Monday", some (.dateOnly ⟨2026, 2, 2⟩)⟩]),
      WriteOutcome.success⟩
    ⟨[], FileState.missing⟩ "u" _ rfl rfl
    ⟨"late_start", "2026-02-02", "Late Start Monday"⟩ (by decide)

/-- C2: after a sync that resolved a URL, fetched with status 200 and
parsed successfully, the in-memory event list is sorted ascending by the
string value of the `date` field, whatever the feed's entry order. -/
theorem c2_sorted_after_success (inp : SyncInput) (st : CEState) (u : String)
    (comps : List Component) (hu : resolveUrl inp = some u)
    (hf : inp.fetch = FetchOutcome.response 200 (some comps)) :
    ((fetch_and_parse inp st).2.events).Pairwise eventLe := by
  rw [fetch_and_parse_success inp st u comps hu hf]
  exact List.sorted_insertionSort eventLe (parseComponents comps)

/-- Witness for C2: a concrete sync whose feed lists two events in
descending date order still yields a sorted list. -/
theorem c2_sorted_witness :
    ((fetch_and_parse
        ⟨some "u", none, none,
          FetchOutcome.response 200
            (some [⟨"VEVENT", some "Late Start A", some (.dateOnly ⟨2026, 3, 9⟩)⟩,
                   ⟨"VEVENT", some "Hall: B", some (.dateOnly ⟨2026, 1, 2⟩)⟩]),
          WriteOutcome.success⟩
        ⟨[], FileState.missing⟩).2.events).Pairwise eventLe :=
  c2_sorted_after_success _ _ "u" _ rfl rfl

/-- C4: a `fetch_and_parse` call that fails on URL resolution, on the
fetch (client error or non-200 status), or on parsing returns 0 and leaves
the in-memory list and the persisted file exactly as they were. -/
theorem c4_failure_preserves_state (inp : SyncInput) (st : CEState)
    (h : resolveUrl inp = none ∨ inp.fetch = FetchOutcome.clientError ∨
         (∃ s p, inp.fetch = FetchOutcome.response s p ∧ s ≠ 200) ∨
         inp.fetch = FetchOutcome.response 200 none) :
    fetch_and_parse inp st = (0, st) := by
  rcases hru : resolveUrl inp with _ | u
  · exact fetch_and_parse_noUrl inp st hru
  · rcases h with h | h | ⟨s, p, h, hs⟩ | h
    · rw [hru] at h
      exact Option.noConfusion h
    · exact fetch_and_parse_clientError inp st u hru h
    · exact fetch_and_parse_badStatus inp st u s p hru h hs
    · exact fetch_and_parse_parseError inp st u hru h

/-- Witness for C4: a concrete failing sync (client error) returns 0 and
keeps the prior cached state. -/
theorem c4_failure_witness :
    fetch_and_parse
        ⟨some "http://cal", none, none, FetchOutcome.clientError, WriteOutcome.success⟩
        ⟨[⟨"hall", "2025-01-02", "Hall: Q"⟩], FileState.json (JVal.arr [])⟩ =
      (0, ⟨[⟨"hall", "2025-01-02", "Hall: Q"⟩], FileState.json (JVal.arr [])⟩) :=
  c4_failure_preserves_state _ _ (Or.inr (Or.inl rfl))

/-- Counterexample for C3: the claim quantifies over every event list
state, but `get_upcoming_by_type` never re-sorts, and the cache file is
loaded verbatim, so an unsorted stored list is returned in stored
(non-ascending) order: with both dates in the future, the call returns
the two hall events with `"2025-12-02"` before `"2025-12-01"`. -/
theorem c3_counterexample :
    get_upcoming_by_type c3Events "hall" c3Today 5 = some c3Events ∧
    ¬ c3Events.Pairwise eventLe := by
  exact ⟨by decide, by decide⟩

/-- C3 (amended): `get_upcoming_by_type` returns at most `limit` events,
each of the requested type with date ≥ today; the result preserves the
stored order, so it is ascending whenever the stored list is sorted
(which holds after any successful sync, but not for every state). -/
theorem c3_upcoming_amended (events : List EventRec) (t : String)
    (today : PyDate) (limit : Nat) (l : List EventRec)
    (h : get_upcoming_by_type events t today limit = some l) :
    l.length ≤ limit ∧
    (∀ e ∈ l, e.event_type = t ∧
      ∃ d, fromisoformat e.date = some d ∧ dateLe today d = true) ∧
    (events.Pairwise eventLe → l.Pairwise eventLe) := by
  unfold get_upcoming_by_type at h
  rcases hf : upcomingFilter t today events with _ | l0 <;> rw [hf] at h
  · exact Option.noConfusion h
  · cases h
    refine ⟨List.length_take_le _ _, ?_, ?_⟩
    · intro e he
      exact upcomingFilter_mem t today events l0 hf e (List.mem_of_mem_take he)
    · intro hsorted
      exact List.Pairwise.sublist
        ((List.take_sublist _ _).trans (upcomingFilter_sublist t today events l0 hf))
        hsorted

/-- Witness for the amended C3 at a concrete state and query. -/
theorem c3_upcoming_witness :
    ([(⟨"hall", "2025-12-05", "Hall: W"⟩ : EventRec)]).length ≤ 5 :=
  (c3_upcoming_amended [⟨"hall", "2025-12-05", "Hall: W"⟩] "hall" ⟨2025, 1, 1⟩ 5
    [⟨"hall", "2025-12-05", "Hall: W"⟩] (by decide)).1

/-- Counterexample for C5: when only the storage write fails
(PersistFailed), `fetch_and_parse` is not handled like the other three
failures: it returns the new count 1 (not zero) and the in-memory list has
been replaced by the newly parsed events, not left untouched. -/
theorem c5_counterexample :
    (fetch_and_parse c5Input c5State).1 = 1 ∧
    (fetch_and_parse c5Input c5State).2.events ≠ c5State.events := by
  exact ⟨rfl, by decide⟩

/-- C5 (amended): ConfigMissing, FetchFailed and ParseFailed are handled
identically — return 0 and leave the cached state untouched — but
PersistFailed differs: the write failure is only caught and logged, while
the in-memory list has already been replaced by the newly parsed, sorted
events and the caller receives their count, not zero. -/
theorem c5_error_handling :
    (∀ inp st, resolveUrl inp = none → fetch_and_parse inp st = (0, st)) ∧
    (∀ inp st u, resolveUrl inp = some u →
      inp.fetch = FetchOutcome.clientError → fetch_and_parse inp st = (0, st)) ∧
    (∀ inp st u s p, resolveUrl inp = some u →
      inp.fetch = FetchOutcome.response s p → s ≠ 200 →
      fetch_and_parse inp st = (0, st)) ∧
    (∀ inp st u, resolveUrl inp = some u →
      inp.fetch = FetchOutcome.response 200 none →
      fetch_and_parse inp st = (0, st)) ∧
    (∀ inp st u comps, resolveUrl inp = some u →
      inp.fetch = FetchOutcome.response 200 (some comps) →
      inp.save ≠ WriteOutcome.success →
      (fetch_and_parse inp st).2.events =
        List.insertionSort eventLe (parseComponents comps) ∧
      (fetch_and_parse inp st).1 =
        (List.insertionSort eventLe (parseComponents comps)).length) := by
  refine ⟨fun inp st h => fetch_and_parse_noUrl inp st h,
    fun inp st u hu h => fetch_and_parse_clientError inp st u hu h,
    fun inp st u s p hu h hs => fetch_and_parse_badStatus inp st u s p hu h hs,
    fun inp st u hu h => fetch_and_parse_parseError inp st u hu h,
    ?_⟩
  intro inp st u comps hu hf _
  rw [fetch_and_parse_success inp st u comps hu hf]
  exact ⟨rfl, rfl⟩

/-- Witness for the amended C5: a concrete sync whose write fails mid-dump
still replaces the in-memory list with the newly parsed events and returns
their count. -/
theorem c5_error_handling_witness :
    (fetch_and_parse
        ⟨some "w", none, none,
          FetchOutcome.response 200
            (some [⟨"VEVENT", some "Hall: Y", some (.dateOnly ⟨2026, 5, 1⟩)⟩]),
          WriteOutcome.failDuringWrite⟩
        ⟨[], FileState.missing⟩).2.events =
      List.insertionSort eventLe
        (parseComponents [⟨"VEVENT", some "Hall: Y", some (.dateOnly ⟨2026, 5, 1⟩)⟩]) :=
  (c5_error_handling.2.2.2.2
    ⟨some "w", none, none,
      FetchOutcome.response 200
        (some [⟨"VEVENT", some "Hall: Y", some (.dateOnly ⟨2026, 5, 1⟩)⟩]),
      WriteOutcome.failDuringWrite⟩
    ⟨[], FileState.missing⟩ "w" _ rfl rfl (by decide)).1

/-- C6: saving any list of event records and reading the stored value
back yields the identical list — same length, same order, same fields. -/
theorem c6_save_load_roundtrip :
    ∀ (es : List EventRec) (f : FileState),
      (saveToFile ⟨es, f⟩ WriteOutcome.success).file = FileState.json (eventsToJ es) ∧
      decodeEvents (eventsToJ es) = some es := by
  intro es f
  exact ⟨rfl, by simp [eventsToJ, decodeEvents, decodeEventList_map]⟩

/-- C7: `format_date` renders weekday name, month name and ordinal day;
the day suffix agrees everywhere with the spec's rule (st/nd/rd for days
ending in 1/2/3, except 11–13 which take th, otherwise th); in particular
`format_date "2025-12-01"` is `"Monday, December 1st"` and
`format_date "2025-12-11"` ends in `"11th"`. -/
theorem c7_format_date :
    (∀ day : Nat, daySuffix day = specSuffix day) ∧
    (∀ s d, fromisoformat s = some d →
      format_date s = some (d.weekdayName ++ ", " ++ d.monthName ++ " "
        ++ toString d.day ++ specSuffix d.day)) ∧
    format_date "2025-12-01" = some "Monday, December 1st" ∧
    (∃ out, format_date "2025-12-11" = some out ∧ strEndsWith out "11th" = true) := by
  have hs : ∀ day : Nat, daySuffix day = specSuffix day := by
    intro d
    unfold daySuffix specSuffix
    by_cases h11 : 11 ≤ d ∧ d ≤ 13
    · rw [if_pos h11, if_pos (by omega)]
    · rw [if_neg h11, if_neg (by omega)]
      have h10 : d % 10 < 10 := Nat.mod_lt _ (by norm_num)
      generalize hr : d % 10 = r
      rw [hr] at h10
      interval_cases r <;> rfl
  refine ⟨hs, ?_, by decide, ⟨"Thursday, December 11th", by decide, by decide⟩⟩
  intro s d h
  unfold format_date
  rw [h, Option.map_some', hs]

theorem pingEveryone_toggle (st : SettingsState) (ok : Bool) :
    pingEveryone (toggle_ping_everyone st ok).settings =
      JVal.bool (!pyTruthy (pingEveryone st.settings)) := by
  unfold toggle_ping_everyone settingsSet pingEveryone
  simp [dictGet_set_self]

/-- Counterexample for C8: the claim quantifies over every initial
settings state, but the stored `ping_everyone` value is loaded verbatim
from disk and may be a non-boolean (here the truthy string `"yes"`);
`not current` collapses it to a boolean, so after two toggles both the
mapping and the observed flag value are `True`, not the original string. -/
theorem c8_counterexample :
    pingEveryone (toggle_ping_everyone (toggle_ping_everyone c8State true) true).settings =
      JVal.bool true ∧
    pingEveryone c8State.settings = JVal.str "yes" ∧
    (toggle_ping_everyone (toggle_ping_everyone c8State true) true).settings ≠
      c8State.settings := by
  refine ⟨by rfl, by rfl, ?_⟩
  intro h
  rw [show (toggle_ping_everyone (toggle_ping_everyone c8State true) true).settings =
      [("ping_everyone", JVal.bool true)] from rfl] at h
  rw [show c8State.settings = [("ping_everyone", JVal.str "yes")] from rfl] at h
  have h2 := List.head_eq_of_cons_eq h
  have h3 := congrArg Prod.snd h2
  exact JVal.noConfusion h3

/-- C8 (amended): when the stored `ping_everyone` value is absent or a
boolean (the values the program itself writes), toggling twice restores
the observed flag value; and each toggle (with the write succeeding)
immediately rewrites the backing store, so a fresh load observes exactly
the toggled value. -/
theorem c8_toggle_twice (st : SettingsState)
    (h : dictGet st.settings "ping_everyone" = none ∨
         ∃ b, dictGet st.settings "ping_everyone" = some (JVal.bool b)) :
    pingEveryone (toggle_ping_everyone (toggle_ping_everyone st true) true).settings =
      pingEveryone st.settings ∧
    (toggle_ping_everyone st true).file =
      some (toggle_ping_everyone st true).settings ∧
    pingEveryone (freshLoad (toggle_ping_everyone st true).file) =
      JVal.bool (!pyTruthy (pingEveryone st.settings)) := by
  refine ⟨?_, rfl, ?_⟩
  · rw [pingEveryone_toggle, pingEveryone_toggle]
    rcases h with h | ⟨b, h⟩
    · rw [show pingEveryone st.settings = JVal.bool true by
        unfold pingEveryone; rw [h]; rfl]
      simp [pyTruthy]
    · rw [show pingEveryone st.settings = JVal.bool b by
        unfold pingEveryone; rw [h]; rfl]
      simp [pyTruthy]
  · rw [show freshLoad (toggle_ping_everyone st true).file =
        (toggle_ping_everyone st true).settings from rfl]
    rw [pingEveryone_toggle]

/-- Witness for the amended C8 on the default settings: the flag starts
observed `True`, and after two toggles it is observed `True` again. -/
theorem c8_toggle_witness :
    pingEveryone (toggle_ping_everyone
        (toggle_ping_everyone ⟨DEFAULT_SETTINGS, some DEFAULT_SETTINGS⟩ true) true).settings =
      pingEveryone (DEFAULT_SETTINGS : List (String × JVal)) :=
  (c8_toggle_twice ⟨DEFAULT_SETTINGS, some DEFAULT_SETTINGS⟩
    (Or.inr ⟨true, rfl⟩)).1

/-- C9: `Settings.set k v` changes only the entry at `k`: every other
key keeps its value in the in-memory mapping, and the rewritten backing
store (the full serialisation of the new mapping) also carries the old
value at every other key. -/
theorem c9_set_frame (st : SettingsState) (k : String) (v : JVal) (k' : String)
    (h : k' ≠ k) :
    dictGet (settingsSet st k v true).settings k' = dictGet st.settings k' ∧
    (settingsSet st k v true).file = some (settingsSet st k v true).settings ∧
    (∃ fm, (settingsSet st k v true).file = some fm ∧
      dictGet fm k' = dictGet st.settings k') := by
  exact ⟨dictGet_set_other _ _ _ _ h, rfl,
    ⟨dictSet st.settings k v, rfl, dictGet_set_other _ _ _ _ h⟩⟩

/-- Witness for C9: setting `ical_url` on the default settings leaves
`ping_everyone` unchanged. -/
theorem c9_set_frame_witness :
    dictGet (settingsSet ⟨DEFAULT_SETTINGS, some DEFAULT_SETTINGS⟩
        "ical_url" (JVal.str "http://cal") true).settings "ping_everyone" =
      dictGet DEFAULT_SETTINGS "ping_everyone" :=
  (c9_set_frame ⟨DEFAULT_SETTINGS, some DEFAULT_SETTINGS⟩ "ical_url"
    (JVal.str "http://cal") "ping_everyone" (by decide)).1

/-- C10: the `notification_channel_id` getter yields `None` for every
falsy stored value, not only a missing or null one; in particular after
setting the channel id to 0 the getter yields `None`, exactly as for the
unset default state. -/
theorem c10_channel_id_falsy :
    (∀ m : List (String × JVal),
      pyTruthy ((dictGet m "notification_channel_id").getD JVal.null) = false →
      notification_channel_id m = none) ∧
    (∀ st : SettingsState,
      notification_channel_id
        (settingsSet st "notification_channel_id" (JVal.num 0) true).settings = none) ∧
    notification_channel_id DEFAULT_SETTINGS = none := by
  refine ⟨?_, ?_, rfl⟩
  · intro m h
    unfold notification_channel_id
    simp [h]
  · intro st
    unfold notification_channel_id settingsSet
    simp [dictGet_set_self, pyTruthy]

/-- Witness for C10: a concrete falsy stored value (the empty mapping)
makes the getter yield `None`. -/
theorem c10_channel_id_witness :
    notification_channel_id [] = none :=
  c10_channel_id_falsy.1 [] rfl

/-- Witness for C6 at the specification's example record. -/
theorem c6_roundtrip_witness :
    decodeEvents (eventsToJ [⟨"hall", "2025-12-01", "Hall: Winter Assembly"⟩]) =
      some [⟨"hall", "2025-12-01", "Hall: Winter Assembly"⟩] :=
  (c6_save_load_roundtrip [⟨"hall", "2025-12-01", "Hall: Winter Assembly"⟩]
    FileState.missing).2

/-- Witness for C7 at a concrete date. -/
theorem c7_format_date_witness :
    format_date "2026-03-14" =
      some ((⟨2026, 3, 14⟩ : PyDate).weekdayName ++ ", "
        ++ (⟨2026, 3, 14⟩ : PyDate).monthName ++ " "
        ++ toString (⟨2026, 3, 14⟩ : PyDate).day
        ++ specSuffix (⟨2026, 3, 14⟩ : PyDate).day) :=
  c7_format_date.2.1 "2026-03-14" ⟨2026, 3, 14⟩ (by decide)
